import Mathlib

/-!
# Verification of `binanceFuturesClient.py`

A shallow embedding of the order-construction and position-reconciliation
logic of the `BinanceFutures` client class, together with theorems settling
the specification claims about it.

Modelling conventions:
* Python floats on the values the claims exercise are modelled as exact
  rationals (`ℚ`); the library helper `round_step_size` works through
  `Decimal(str(x))`, which is exact on such inputs.
* Calls on `self.client` (the exchange transport) are modelled as explicit
  inputs: a call that can raise is an `Except String` value, a per-symbol
  fallible call is a `String → Bool` failure oracle.
* An order "placed" is an invocation of `self.client.new_order`; the
  functions below return the ordered trace of such invocations.
* Python dicts keyed by symbol are modelled as `String → Option` maps with
  pointwise update, matching dict assignment semantics.
-/

/-- A Python runtime value as it appears in the order-parameter dict:
a string, a number, a boolean, or `None`. -/
inductive PyVal : Type
  | str (s : String)
  | num (q : ℚ)
  | bool (b : Bool)
  | pynone
  deriving DecidableEq, Repr

/-- One entry of `self.client.account()['positions']`: the fields the code
reads (`symbol`, `positionAmt`, `positionSide`). -/
structure Position : Type where
  symbol : String
  positionAmt : ℚ
  positionSide : String
  deriving DecidableEq, Repr

/-- The argument record of `make_order`, i.e. the `orderObj` dict it builds
(`quantity`, `timeInForce`, `price`, `stopPrice` may be Python `None`,
modelled as `Option`). -/
structure OrderObj : Type where
  symbol : String
  side : String
  positionSide : String
  type : String
  quantity : Option ℚ
  timeInForce : Option String
  price : Option ℚ
  stopPrice : Option ℚ
  workingType : String
  priceProtect : Bool
  closePosition : Bool
  deriving DecidableEq, Repr

/-- `make_order`'s dict construction: all eleven keys are always present in
`orderObj`, unset optional arguments appearing as `None`. -/
def make_order (pair side : String) (quantity : Option ℚ) (market : String)
    (positionSide : String) (timeInForce : Option String)
    (price stopPrice : Option ℚ) (workingType : String)
    (priceProtect closePosition : Bool) : OrderObj :=
  { symbol := pair
    side := side
    positionSide := positionSide
    type := market
    quantity := quantity
    timeInForce := timeInForce
    price := price
    stopPrice := stopPrice
    workingType := workingType
    priceProtect := priceProtect
    closePosition := closePosition }

/-- The `orderObj` dict as the key/value list handed to
`self.client.new_order(**orderObj)`. -/
def orderParams (o : OrderObj) : List (String × PyVal) :=
  [ ("symbol", PyVal.str o.symbol)
  , ("side", PyVal.str o.side)
  , ("positionSide", PyVal.str o.positionSide)
  , ("type", PyVal.str o.type)
  , ("quantity", (o.quantity.map PyVal.num).getD PyVal.pynone)
  , ("timeInForce", (o.timeInForce.map PyVal.str).getD PyVal.pynone)
  , ("price", (o.price.map PyVal.num).getD PyVal.pynone)
  , ("stopPrice", (o.stopPrice.map PyVal.num).getD PyVal.pynone)
  , ("workingType", PyVal.str o.workingType)
  , ("priceProtect", PyVal.bool o.priceProtect)
  , ("closePosition", PyVal.bool o.closePosition) ]

/-- `binance.lib.utils.cleanNoneValue`, applied by the connector's
`prepare_params` before signing: entries whose value is `None` are dropped
from the payload. -/
def cleanNoneValue (d : List (String × PyVal)) : List (String × PyVal) :=
  d.filter fun kv => kv.2 ≠ PyVal.pynone

/-- The wire payload the exchange receives for an order built by
`make_order`: the parameter dict after `cleanNoneValue`. -/
def wirePayload (o : OrderObj) : List (String × PyVal) :=
  cleanNoneValue (orderParams o)

/-- Truncation toward zero on `ℚ`, matching Python `Decimal` integer
division used implicitly by the `Decimal` `%` operator. -/
def ratTrunc (q : ℚ) : ℤ :=
  if 0 ≤ q then ⌊q⌋ else ⌈q⌉

/-- Python `Decimal` remainder (`%`): sign of the dividend, i.e. the
remainder of truncated division. -/
def decimalRem (q s : ℚ) : ℚ :=
  q - s * ratTrunc (q / s)

/-- `binance.helpers.round_step_size`:
`Decimal(str(q)) - Decimal(str(q)) % Decimal(str(step))`, exact on the
decimal inputs in play. For positive inputs this is the largest multiple
of `step_size` not exceeding `quantity`. -/
def round_step_size (quantity step_size : ℚ) : ℚ :=
  quantity - decimalRem quantity step_size

/-- `market_order pair side q`: the single MARKET order it hands to
`make_order` (BUY when `side == "long"`, else SELL), with `make_order`'s
default arguments for the remaining fields. -/
def market_order (pair side : String) (precized_quantity : ℚ) : OrderObj :=
  if side = "long" then
    make_order pair "BUY" (some precized_quantity) "MARKET"
      "BOTH" none none none "CONTRACT_PRICE" false false
  else
    make_order pair "SELL" (some precized_quantity) "MARKET"
      "BOTH" none none none "CONTRACT_PRICE" false false

/-- `limit_order pair side q p tick`: the single LIMIT order it places,
with the limit price rounded to the tick size. -/
def limit_order (pair side : String) (precized_quantity limit_price tick_size : ℚ) :
    OrderObj :=
  if side = "long" then
    make_order pair "BUY" (some precized_quantity) "LIMIT"
      "BOTH" (some "GTC") (some (round_step_size limit_price tick_size)) none
      "CONTRACT_PRICE" false false
  else
    make_order pair "SELL" (some precized_quantity) "LIMIT"
      "BOTH" (some "GTC") (some (round_step_size limit_price tick_size)) none
      "CONTRACT_PRICE" false false

/-- The position-scan loop shared by the `side == "long"` branches of
`stop_loss_order` and `take_profit_order`: walk the fetched positions and
stop at the first one for `pair` with nonzero amount that is positive with
`positionSide == "LONG"`; positions passing only the outer test are
skipped and the walk continues. -/
def scanLong (pair : String) : List Position → Bool
  | [] => false
  | pos :: rest =>
    if pos.symbol = pair ∧ 0 < |pos.positionAmt| then
      if 0 < pos.positionAmt ∧ pos.positionSide = "LONG" then true
      else scanLong pair rest
    else scanLong pair rest

/-- The position-scan loop shared by the short branches of
`stop_loss_order` and `take_profit_order`: first position for `pair` with
nonzero amount that is negative with `positionSide == "SHORT"`. -/
def scanShort (pair : String) : List Position → Bool
  | [] => false
  | pos :: rest =>
    if pos.symbol = pair ∧ 0 < |pos.positionAmt| then
      if pos.positionAmt < 0 ∧ pos.positionSide = "SHORT" then true
      else scanShort pair rest
    else scanShort pair rest

/-- The protective order both branches of `stop_loss_order` hand to
`make_order`: a closing STOP_MARKET (SELL against a long, BUY against a
short) with `GTE_GTC`, `MARK_PRICE`, `priceProtect` and `closePosition`. -/
def slProtective (pair : String) (isLong : Bool) (stoploss_price : ℚ) : OrderObj :=
  make_order pair (if isLong then "SELL" else "BUY") none "STOP_MARKET"
    "BOTH" (some "GTE_GTC") none (some stoploss_price) "MARK_PRICE" true true

/-- The protective order both branches of `take_profit_order` hand to
`make_order`: a closing TAKE_PROFIT_MARKET with the same fixed fields. -/
def tpProtective (pair : String) (isLong : Bool) (takeprofit_price : ℚ) : OrderObj :=
  make_order pair (if isLong then "SELL" else "BUY") none "TAKE_PROFIT_MARKET"
    "BOTH" (some "GTE_GTC") none (some takeprofit_price) "MARK_PRICE" true true

/-- `stop_loss_order pair side q pct tick` on the non-raising path
(`ticker_price` returned `price`, `account()` returned `positions`):
the ordered trace of orders it places. A matching scan places only the
protective order; otherwise `market_order` places the entry first and the
protective order follows. -/
def stop_loss_order (pair side : String) (precized_quantity stoploss tick_size : ℚ)
    (price : ℚ) (positions : List Position) : List OrderObj :=
  if side = "long" then
    let stoploss_price := round_step_size (price * (1 - stoploss / 100)) tick_size
    if scanLong pair positions then
      [slProtective pair true stoploss_price]
    else
      [market_order pair side precized_quantity, slProtective pair true stoploss_price]
  else
    let stoploss_price := round_step_size (price * (1 + stoploss / 100)) tick_size
    if scanShort pair positions then
      [slProtective pair false stoploss_price]
    else
      [market_order pair side precized_quantity, slProtective pair false stoploss_price]

/-- `take_profit_order pair side q pct tick` on the non-raising path: the
ordered trace of orders it places, mirroring `stop_loss_order` with the
price offset reversed and type TAKE_PROFIT_MARKET. -/
def take_profit_order (pair side : String) (precized_quantity takeprofit tick_size : ℚ)
    (price : ℚ) (positions : List Position) : List OrderObj :=
  if side = "long" then
    let takeprofit_price := round_step_size (price * (1 + takeprofit / 100)) tick_size
    if scanLong pair positions then
      [tpProtective pair true takeprofit_price]
    else
      [market_order pair side precized_quantity, tpProtective pair true takeprofit_price]
  else
    let takeprofit_price := round_step_size (price * (1 - takeprofit / 100)) tick_size
    if scanShort pair positions then
      [tpProtective pair false takeprofit_price]
    else
      [market_order pair side precized_quantity, tpProtective pair false takeprofit_price]

example : round_step_size (100 * (1 - 2 / 100)) (1 / 10) = 98 := by
  norm_num [round_step_size, decimalRem, ratTrunc]

/-- A Python dict keyed by symbol, with dict-assignment update. -/
abbrev SymDict (α : Type) := String → Option α

/-- Dict assignment `d[k] = v`. -/
def SymDict.insert (d : SymDict α) (k : String) (v : α) : SymDict α :=
  fun k' => if k' = k then some v else d k'

/-- The empty dict `{}`. -/
def SymDict.empty : SymDict α := fun _ => none

/-- One entry of `info['symbols']` from `exchange_info()`: the fields
`get_precisions` reads. A filter dict is kept as its `filterType` plus the
numeric fields the code would extract from it. -/
structure SymbolFilter : Type where
  filterType : String
  tickSize : ℚ
  minQty : ℚ
  stepSize : ℚ

structure ExchSymbol : Type where
  symbol : String
  quantityPrecision : ℕ
  pricePrecision : ℕ
  filters : List SymbolFilter

/-- The five private per-symbol maps `get_precisions` maintains on the
client object. -/
structure CacheState : Type where
  quantity_precisions : SymDict ℕ
  prices_precisions : SymDict ℕ
  step_sizes : SymDict ℚ
  tick_sizes : SymDict ℚ
  min_sizes : SymDict ℚ

/-- The inner `for symbol_filter in item['filters']` loop: record the tick
size of a PRICE_FILTER and the min/step size of a LOT_SIZE filter. -/
def applyFilters (sym : String) : List SymbolFilter → CacheState → CacheState
  | [], st => st
  | f :: rest, st =>
    let st := if f.filterType = "PRICE_FILTER" then
        { st with tick_sizes := st.tick_sizes.insert sym f.tickSize }
      else st
    let st := if f.filterType = "LOT_SIZE" then
        { st with min_sizes := st.min_sizes.insert sym f.minQty
                  step_sizes := st.step_sizes.insert sym f.stepSize }
      else st
    applyFilters sym rest st

/-- The outer `for item in info['symbols']` loop of `get_precisions`. -/
def loadSymbols : List ExchSymbol → CacheState → CacheState
  | [], st => st
  | item :: rest, st =>
    let st :=
      { st with
          quantity_precisions := st.quantity_precisions.insert item.symbol item.quantityPrecision
          prices_precisions := st.prices_precisions.insert item.symbol item.pricePrecision }
    loadSymbols rest (applyFilters item.symbol item.filters st)

/-- Fresh empty maps, as assigned right after `exchange_info()` returns. -/
def emptyCache : CacheState :=
  { quantity_precisions := SymDict.empty
    prices_precisions := SymDict.empty
    step_sizes := SymDict.empty
    tick_sizes := SymDict.empty
    min_sizes := SymDict.empty }

/-- `get_precisions`: if `exchange_info()` raises, the exception is caught,
a message is printed and the function falls through, leaving the maps as
they were; otherwise all five maps are reassigned fresh and repopulated
from the response. Either way the Python function returns `None`. -/
def get_precisions (info : Except String (List ExchSymbol)) (st : CacheState) :
    CacheState × PyVal :=
  match info with
  | .error _ => (st, PyVal.pynone)
  | .ok symbols => (loadSymbols symbols emptyCache, PyVal.pynone)

/-- The dict `get_pair_parameters` returns on success. -/
structure PairParams : Type where
  min_size : ℚ
  price : ℚ
  price_precision : ℕ
  quantity_precision : ℕ
  step_size : ℚ
  tick_size : ℚ
  deriving DecidableEq, Repr

/-- Dict subscript: `KeyError` (propagated to the enclosing `except`) when
the symbol is absent. -/
def keyLookup (d : SymDict α) (k : String) : Except String α :=
  match d k with
  | some v => .ok v
  | none => .error ("KeyError: " ++ k)

/-- `get_pair_parameters pair`: reads the five cached maps and the ticker
price in source order; any `KeyError` or ticker failure is caught and an
error dict (modelled `.error`) is returned. `tick_size` is read from the
cache only when `pair != "BTCUSDT"`; for BTCUSDT it is the literal `0.1`. -/
def get_pair_parameters (st : CacheState) (tickerPrice : Except String ℚ)
    (pair : String) : Except String PairParams :=
  match keyLookup st.min_sizes pair with
  | .error e => .error e
  | .ok min_size =>
    match tickerPrice with
    | .error e => .error e
    | .ok price =>
      match keyLookup st.prices_precisions pair with
      | .error e => .error e
      | .ok price_precision =>
        match keyLookup st.quantity_precisions pair with
        | .error e => .error e
        | .ok quantity_precision =>
          match keyLookup st.step_sizes pair with
          | .error e => .error e
          | .ok step_size =>
            match (if pair ≠ "BTCUSDT" then keyLookup st.tick_sizes pair
              else Except.ok ((1 : ℚ) / 10)) with
            | .error e => .error e
            | .ok tick_size =>
              Except.ok
                { min_size := min_size
                  price := price
                  price_precision := price_precision
                  quantity_precision := quantity_precision
                  step_size := step_size
                  tick_size := tick_size }

/-- One entry of `self.client.balance()`: the fields `get_balance` reads. -/
structure BalanceEntry : Type where
  asset : String
  balance : ℚ
  deriving DecidableEq, Repr

/-- The `for r in response` loop of `get_balance`: `balance` starts at `0`
and is overwritten by the first entry whose asset matches, which breaks. -/
def balanceScan (coin : String) : List BalanceEntry → ℚ
  | [] => 0
  | r :: rest => if r.asset = coin then r.balance else balanceScan coin rest

/-- `get_balance coin`: returns the scanned balance, or — when
`self.client.balance()` raises — the caught exception object. -/
def get_balance (response : Except String (List BalanceEntry)) (coin : String) :
    Except String ℚ :=
  match response with
  | .error e => .error e
  | .ok rs => .ok (balanceScan coin rs)

/-- The `for pos in positions` loop of `close_all_positions`: the ordered
trace of `market_order` invocations. A positive amount triggers a "short"
market order for the amount, a negative one a "long" market order for its
negation; zero amounts are skipped. `market_order` never raises (its
`new_order` errors come back as values), so the loop always completes. -/
def closeLoop : List Position → List OrderObj
  | [] => []
  | pos :: rest =>
    if 0 < |pos.positionAmt| then
      (if 0 < pos.positionAmt then
          [market_order pos.symbol "short" pos.positionAmt]
        else if pos.positionAmt < 0 then
          [market_order pos.symbol "long" (-pos.positionAmt)]
        else []) ++ closeLoop rest
    else closeLoop rest

/-- `close_all_positions`, parametrised by a failure oracle for
`new_order` (whose result `market_order` catches, prints and returns as a
value, never influencing control flow): the trace of attempted orders and
the returned value, which is the string `"close-done"` whenever
`account()` itself succeeded. -/
def close_all_positions (newOrderFails : OrderObj → Bool)
    (account : Except String (List Position)) :
    List OrderObj × Except String String :=
  match account with
  | .error e => ([], .error e)
  | .ok positions =>
    let _ := newOrderFails
    (closeLoop positions, .ok "close-done")

/-- The `for symbol in order_symbols` loop of `cancel_all_orders`:
`cancel_open_orders` is called inside the surrounding `try`, so a raising
call aborts the loop and the whole function. Returns the trace of cancel
calls attempted (the raising one included) and the loop's outcome. -/
def cancelLoop (cancelFails : String → Bool) : List String →
    List String × Except String String
  | [] => ([], .ok "cancel-done")
  | s :: rest =>
    if cancelFails s then ([s], .error ("cancel_open_orders raised on " ++ s))
    else
      let r := cancelLoop cancelFails rest
      (s :: r.1, r.2)

/-- `cancel_all_orders`: reads all open orders, maps each to its symbol
(no deduplication) and cancels per symbol; a raising call, or a failure of
`get_orders()` itself, is caught and returned as an error value. -/
def cancel_all_orders (cancelFails : String → Bool)
    (openOrderSymbols : Except String (List String)) :
    List String × Except String String :=
  match openOrderSymbols with
  | .error e => ([], .error e)
  | .ok symbols => cancelLoop cancelFails symbols

/-! ## Claim-side definitions

These follow the wording of the specification claims and are compared with
the embedded code above. -/

/-- Claim wording (C1): the fetched position list contains a position for
the symbol with nonzero amount, positive sign, and positionSide LONG. -/
def claimMatchLong (pair : String) (ps : List Position) : Prop :=
  ∃ pos ∈ ps, pos.symbol = pair ∧ pos.positionAmt ≠ 0 ∧
    0 < pos.positionAmt ∧ pos.positionSide = "LONG"

/-- Claim wording (C1): a position for the symbol with nonzero amount,
negative sign, and positionSide SHORT. -/
def claimMatchShort (pair : String) (ps : List Position) : Prop :=
  ∃ pos ∈ ps, pos.symbol = pair ∧ pos.positionAmt ≠ 0 ∧
    pos.positionAmt < 0 ∧ pos.positionSide = "SHORT"

instance (pair : String) (ps : List Position) : Decidable (claimMatchLong pair ps) := by
  unfold claimMatchLong; infer_instance

instance (pair : String) (ps : List Position) : Decidable (claimMatchShort pair ps) := by
  unfold claimMatchShort; infer_instance

/-- Claim wording (C1): with a matching position, exactly the protective
order; without one, exactly the entry order followed by the protective
order. -/
def expectedTrace (matched : Prop) [Decidable matched] (entry protective : OrderObj) :
    List OrderObj :=
  if matched then [protective] else [entry, protective]

/-- Claim wording (C5): the single opposing market order for a position —
SELL sized to the absolute amount when the amount is positive, BUY sized
to the absolute amount when negative, nothing when zero. -/
def claimCloseOrder (pos : Position) : Option OrderObj :=
  if 0 < pos.positionAmt then
    some (make_order pos.symbol "SELL" (some |pos.positionAmt|) "MARKET"
      "BOTH" none none none "CONTRACT_PRICE" false false)
  else if pos.positionAmt < 0 then
    some (make_order pos.symbol "BUY" (some |pos.positionAmt|) "MARKET"
      "BOTH" none none none "CONTRACT_PRICE" false false)
  else none

/-- A concrete cache whose stored BTCUSDT tick size is deliberately not
`0.1`, used to exercise `get_pair_parameters` on explicit inputs. -/
def demoCache : CacheState :=
  { quantity_precisions := fun s => if s = "BTCUSDT" then some 3 else none
    prices_precisions := fun s => if s = "BTCUSDT" then some 2 else none
    step_sizes := fun s => if s = "BTCUSDT" then some 1 else none
    tick_sizes := fun s => if s = "BTCUSDT" then some 5 else none
    min_sizes := fun s => if s = "BTCUSDT" then some 1 else none }

/-! ## Helper lemmas -/

theorem scanLong_eq_true_iff (pair : String) (ps : List Position) :
    scanLong pair ps = true ↔ claimMatchLong pair ps := by
  unfold claimMatchLong
  induction ps with
  | nil => simp [scanLong]
  | cons pos rest ih =>
    by_cases h1 : pos.symbol = pair ∧ 0 < |pos.positionAmt|
    · by_cases h2 : 0 < pos.positionAmt ∧ pos.positionSide = "LONG"
      · rw [scanLong, if_pos h1, if_pos h2]
        exact iff_of_true rfl ⟨pos, List.mem_cons_self pos rest, h1.1,
          abs_pos.mp h1.2, h2.1, h2.2⟩
      · rw [scanLong, if_pos h1, if_neg h2, ih]
        constructor
        · rintro ⟨q, hq, hrest⟩
          exact ⟨q, List.mem_cons_of_mem pos hq, hrest⟩
        · rintro ⟨q, hq, hsym, hne, hpos, hside⟩
          rcases List.mem_cons.mp hq with hq | hq
          · exact absurd ⟨hq ▸ hpos, hq ▸ hside⟩ h2
          · exact ⟨q, hq, hsym, hne, hpos, hside⟩
    · rw [scanLong, if_neg h1, ih]
      constructor
      · rintro ⟨q, hq, hrest⟩
        exact ⟨q, List.mem_cons_of_mem pos hq, hrest⟩
      · rintro ⟨q, hq, hsym, hne, hpos, hside⟩
        rcases List.mem_cons.mp hq with hq | hq
        · exact absurd ⟨hq ▸ hsym, hq ▸ abs_pos.mpr hne⟩ h1
        · exact ⟨q, hq, hsym, hne, hpos, hside⟩

theorem scanShort_eq_true_iff (pair : String) (ps : List Position) :
    scanShort pair ps = true ↔ claimMatchShort pair ps := by
  unfold claimMatchShort
  induction ps with
  | nil => simp [scanShort]
  | cons pos rest ih =>
    by_cases h1 : pos.symbol = pair ∧ 0 < |pos.positionAmt|
    · by_cases h2 : pos.positionAmt < 0 ∧ pos.positionSide = "SHORT"
      · rw [scanShort, if_pos h1, if_pos h2]
        exact iff_of_true rfl ⟨pos, List.mem_cons_self pos rest, h1.1,
          abs_pos.mp h1.2, h2.1, h2.2⟩
      · rw [scanShort, if_pos h1, if_neg h2, ih]
        constructor
        · rintro ⟨q, hq, hrest⟩
          exact ⟨q, List.mem_cons_of_mem pos hq, hrest⟩
        · rintro ⟨q, hq, hsym, hne, hneg, hside⟩
          rcases List.mem_cons.mp hq with hq | hq
          · exact absurd ⟨hq ▸ hneg, hq ▸ hside⟩ h2
          · exact ⟨q, hq, hsym, hne, hneg, hside⟩
    · rw [scanShort, if_neg h1, ih]
      constructor
      · rintro ⟨q, hq, hrest⟩
        exact ⟨q, List.mem_cons_of_mem pos hq, hrest⟩
      · rintro ⟨q, hq, hsym, hne, hneg, hside⟩
        rcases List.mem_cons.mp hq with hq | hq
        · exact absurd ⟨hq ▸ hsym, hq ▸ abs_pos.mpr hne⟩ h1
        · exact ⟨q, hq, hsym, hne, hneg, hside⟩

theorem closeLoop_eq_filterMap (ps : List Position) :
    closeLoop ps = ps.filterMap claimCloseOrder := by
  induction ps with
  | nil => rfl
  | cons pos rest ih =>
    rw [closeLoop]
    by_cases hz : 0 < |pos.positionAmt|
    · rw [if_pos hz]
      by_cases hp : 0 < pos.positionAmt
      · have hc : claimCloseOrder pos =
            some (market_order pos.symbol "short" pos.positionAmt) := by
          rw [claimCloseOrder, if_pos hp, market_order, if_neg (by decide : ¬("short" = "long")),
            abs_of_pos hp]
        rw [if_pos hp]
        simp [List.filterMap_cons, hc, ih]
      · have hn : pos.positionAmt < 0 := by
          rcases (abs_pos.mp hz).lt_or_lt with h | h
          · exact h
          · exact absurd h hp
        have hc : claimCloseOrder pos =
            some (market_order pos.symbol "long" (-pos.positionAmt)) := by
          rw [claimCloseOrder, if_neg hp, if_pos hn, market_order,
            if_pos (rfl : ("long" : String) = "long"), abs_of_neg hn]
        rw [if_neg hp, if_pos hn]
        simp [List.filterMap_cons, hc, ih]
    · have h0 : pos.positionAmt = 0 := by
        by_contra hne
        exact hz (abs_pos.mpr hne)
      have hc : claimCloseOrder pos = none := by
        rw [claimCloseOrder, if_neg (by rw [h0]; exact lt_irrefl 0),
          if_neg (by rw [h0]; exact lt_irrefl 0)]
      rw [if_neg hz]
      simp [List.filterMap_cons, hc, ih]

theorem cancelLoop_all_ok (g : String → Bool) (l : List String)
    (h : ∀ s ∈ l, g s = false) : cancelLoop g l = (l, .ok "cancel-done") := by
  induction l with
  | nil => rfl
  | cons s rest ih =>
    rw [cancelLoop]
    have hs : g s = false := h s (List.mem_cons_self s rest)
    rw [if_neg (by rw [hs]; exact Bool.false_ne_true)]
    rw [ih fun x hx => h x (List.mem_cons_of_mem s hx)]

theorem cancelLoop_stops_at_failure (g : String → Bool) (l : List String)
    (s : String) (r : List String) (hl : ∀ x ∈ l, g x = false) (hs : g s = true) :
    cancelLoop g (l ++ s :: r) =
      (l ++ [s], .error ("cancel_open_orders raised on " ++ s)) := by
  induction l with
  | nil =>
    rw [List.nil_append, cancelLoop, if_pos hs, List.nil_append]
  | cons x rest ih =>
    rw [List.cons_append, cancelLoop]
    have hx : g x = false := hl x (List.mem_cons_self x rest)
    rw [if_neg (by rw [hx]; exact Bool.false_ne_true)]
    rw [ih fun y hy => hl y (List.mem_cons_of_mem x hy), List.cons_append]

theorem balanceScan_of_not_mem (coin : String) (rs : List BalanceEntry)
    (h : ∀ r ∈ rs, r.asset ≠ coin) : balanceScan coin rs = 0 := by
  induction rs with
  | nil => rfl
  | cons r rest ih =>
    rw [balanceScan, if_neg (h r (List.mem_cons_self r rest))]
    exact ih fun x hx => h x (List.mem_cons_of_mem r hx)

theorem balanceScan_first_match (coin : String) (l : List BalanceEntry)
    (e : BalanceEntry) (r : List BalanceEntry) (hl : ∀ x ∈ l, x.asset ≠ coin)
    (he : e.asset = coin) : balanceScan coin (l ++ e :: r) = e.balance := by
  induction l with
  | nil => rw [List.nil_append, balanceScan, if_pos he]
  | cons x rest ih =>
    rw [List.cons_append, balanceScan, if_neg (hl x (List.mem_cons_self x rest))]
    exact ih fun y hy => hl y (List.mem_cons_of_mem x hy)

theorem stop_loss_order_eq (pair side : String) (q pct tick price : ℚ)
    (ps : List Position) :
    stop_loss_order pair side q pct tick price ps =
      if side = "long" then
        expectedTrace (claimMatchLong pair ps) (market_order pair side q)
          (slProtective pair true (round_step_size (price * (1 - pct / 100)) tick))
      else
        expectedTrace (claimMatchShort pair ps) (market_order pair side q)
          (slProtective pair false (round_step_size (price * (1 + pct / 100)) tick)) := by
  by_cases hside : side = "long"
  · by_cases hm : claimMatchLong pair ps
    · simp only [stop_loss_order, expectedTrace, if_pos hside, if_pos hm,
        if_pos ((scanLong_eq_true_iff pair ps).mpr hm)]
    · simp only [stop_loss_order, expectedTrace, if_pos hside, if_neg hm,
        if_neg (fun h => hm ((scanLong_eq_true_iff pair ps).mp h))]
  · by_cases hm : claimMatchShort pair ps
    · simp only [stop_loss_order, expectedTrace, if_neg hside, if_pos hm,
        if_pos ((scanShort_eq_true_iff pair ps).mpr hm)]
    · simp only [stop_loss_order, expectedTrace, if_neg hside, if_neg hm,
        if_neg (fun h => hm ((scanShort_eq_true_iff pair ps).mp h))]

theorem take_profit_order_eq (pair side : String) (q pct tick price : ℚ)
    (ps : List Position) :
    take_profit_order pair side q pct tick price ps =
      if side = "long" then
        expectedTrace (claimMatchLong pair ps) (market_order pair side q)
          (tpProtective pair true (round_step_size (price * (1 + pct / 100)) tick))
      else
        expectedTrace (claimMatchShort pair ps) (market_order pair side q)
          (tpProtective pair false (round_step_size (price * (1 - pct / 100)) tick)) := by
  by_cases hside : side = "long"
  · by_cases hm : claimMatchLong pair ps
    · simp only [take_profit_order, expectedTrace, if_pos hside, if_pos hm,
        if_pos ((scanLong_eq_true_iff pair ps).mpr hm)]
    · simp only [take_profit_order, expectedTrace, if_pos hside, if_neg hm,
        if_neg (fun h => hm ((scanLong_eq_true_iff pair ps).mp h))]
  · by_cases hm : claimMatchShort pair ps
    · simp only [take_profit_order, expectedTrace, if_neg hside, if_pos hm,
        if_pos ((scanShort_eq_true_iff pair ps).mpr hm)]
    · simp only [take_profit_order, expectedTrace, if_neg hside, if_neg hm,
        if_neg (fun h => hm ((scanShort_eq_true_iff pair ps).mp h))]

theorem market_order_type_eq (pair side : String) (q : ℚ) :
    (market_order pair side q).type = "MARKET" := by
  rw [market_order]
  split <;> rfl

theorem mem_expectedTrace {m : Prop} [Decidable m] {entry protective o : OrderObj}
    (ho : o ∈ expectedTrace m entry protective) : o = entry ∨ o = protective := by
  rw [expectedTrace] at ho
  split_ifs at ho
  · exact Or.inr (List.mem_singleton.mp ho)
  · rcases List.mem_cons.mp ho with h | h
    · exact Or.inl h
    · exact Or.inr (List.mem_singleton.mp h)

theorem get_pair_parameters_tick_size (st : CacheState) (tp : Except String ℚ)
    (pair : String) (p : PairParams) (h : get_pair_parameters st tp pair = Except.ok p) :
    (pair = "BTCUSDT" → p.tick_size = 1 / 10)
    ∧ (pair ≠ "BTCUSDT" → st.tick_sizes pair = some p.tick_size) := by
  rw [get_pair_parameters] at h
  split at h
  · exact absurd h (by simp)
  · split at h
    · exact absurd h (by simp)
    · split at h
      · exact absurd h (by simp)
      · split at h
        · exact absurd h (by simp)
        · split at h
          · exact absurd h (by simp)
          · split at h
            · exact absurd h (by simp)
            · rename_i tick heq
              rw [Except.ok.injEq] at h
              subst h
              constructor
              · intro hpair
                rw [if_neg (fun hne => hne hpair)] at heq
                rw [Except.ok.injEq] at heq
                exact heq.symm
              · intro hne
                rw [if_pos hne, keyLookup] at heq
                split at heq
                · rename_i v hv
                  rw [Except.ok.injEq] at heq
                  rw [hv, heq]
                · exact absurd heq (by simp)

/-! ## Claim theorems -/

/-- C1: for every call to `stop_loss_order` or `take_profit_order`, if the
fetched position list contains a position for the same symbol with nonzero
amount whose sign matches the requested direction and whose positionSide
matches, the trace is exactly the protective order (no entry market
order); if no such position exists, the trace is exactly the entry market
order for `precized_quantity` followed by the protective order. -/
theorem C1_reconciliation_order_counts (pair side : String)
    (precized_quantity pct tick price : ℚ) (ps : List Position) :
    stop_loss_order pair side precized_quantity pct tick price ps =
      (if side = "long" then
        expectedTrace (claimMatchLong pair ps) (market_order pair side precized_quantity)
          (slProtective pair true (round_step_size (price * (1 - pct / 100)) tick))
      else
        expectedTrace (claimMatchShort pair ps) (market_order pair side precized_quantity)
          (slProtective pair false (round_step_size (price * (1 + pct / 100)) tick)))
    ∧ take_profit_order pair side precized_quantity pct tick price ps =
      (if side = "long" then
        expectedTrace (claimMatchLong pair ps) (market_order pair side precized_quantity)
          (tpProtective pair true (round_step_size (price * (1 + pct / 100)) tick))
      else
        expectedTrace (claimMatchShort pair ps) (market_order pair side precized_quantity)
          (tpProtective pair false (round_step_size (price * (1 - pct / 100)) tick))) :=
  ⟨stop_loss_order_eq pair side precized_quantity pct tick price ps,
   take_profit_order_eq pair side precized_quantity pct tick price ps⟩

/-- C2: every protective order carries trigger price
`price * (1 ∓ pct/100)` rounded to the tick size — minus for a long
stop-loss and a short take-profit, plus for a long take-profit and a short
stop-loss — and in particular `price=100, pct=2, tickSize=0.1` gives a
long stop-loss trigger of `98`. -/
theorem C2_trigger_price (pair side : String) (q pct tick price : ℚ)
    (ps : List Position) :
    ((side = "long" → ∀ o ∈ stop_loss_order pair side q pct tick price ps,
        o.type = "STOP_MARKET" →
        o.stopPrice = some (round_step_size (price * (1 - pct / 100)) tick))
    ∧ (side ≠ "long" → ∀ o ∈ stop_loss_order pair side q pct tick price ps,
        o.type = "STOP_MARKET" →
        o.stopPrice = some (round_step_size (price * (1 + pct / 100)) tick))
    ∧ (side = "long" → ∀ o ∈ take_profit_order pair side q pct tick price ps,
        o.type = "TAKE_PROFIT_MARKET" →
        o.stopPrice = some (round_step_size (price * (1 + pct / 100)) tick))
    ∧ (side ≠ "long" → ∀ o ∈ take_profit_order pair side q pct tick price ps,
        o.type = "TAKE_PROFIT_MARKET" →
        o.stopPrice = some (round_step_size (price * (1 - pct / 100)) tick)))
    ∧ round_step_size (100 * (1 - 2 / 100)) (1 / 10) = 98 := by
  refine ⟨⟨?_, ?_, ?_, ?_⟩, by norm_num [round_step_size, decimalRem, ratTrunc]⟩
  · intro hside o ho htype
    rw [stop_loss_order_eq, if_pos hside] at ho
    rcases mem_expectedTrace ho with rfl | rfl
    · have hmt := market_order_type_eq pair side q
      rw [htype] at hmt
      exact absurd hmt (by decide)
    · rfl
  · intro hside o ho htype
    rw [stop_loss_order_eq, if_neg hside] at ho
    rcases mem_expectedTrace ho with rfl | rfl
    · have hmt := market_order_type_eq pair side q
      rw [htype] at hmt
      exact absurd hmt (by decide)
    · rfl
  · intro hside o ho htype
    rw [take_profit_order_eq, if_pos hside] at ho
    rcases mem_expectedTrace ho with rfl | rfl
    · have hmt := market_order_type_eq pair side q
      rw [htype] at hmt
      exact absurd hmt (by decide)
    · rfl
  · intro hside o ho htype
    rw [take_profit_order_eq, if_neg hside] at ho
    rcases mem_expectedTrace ho with rfl | rfl
    · have hmt := market_order_type_eq pair side q
      rw [htype] at hmt
      exact absurd hmt (by decide)
    · rfl

/-- Witness for C2 at `pair=BTCUSDT, side=long, pct=2, tick=0.1, price=100`
with no open positions: the protective order in the trace carries the
rounded trigger, which is `98`. -/
theorem C2_trigger_price_witness :
    (slProtective "BTCUSDT" true
        (round_step_size (100 * (1 - 2 / 100)) (1 / 10))).stopPrice
      = some (round_step_size (100 * (1 - 2 / 100)) (1 / 10))
    ∧ round_step_size (100 * (1 - 2 / 100)) (1 / 10) = 98 :=
  ⟨(C2_trigger_price "BTCUSDT" "long" 1 2 (1 / 10) 100 []).1.1 rfl _
      (by simp [stop_loss_order, scanLong]) rfl,
   (C2_trigger_price "BTCUSDT" "long" 1 2 (1 / 10) 100 []).2⟩

/-- C5: `close_all_positions` issues, for every fetched position with
nonzero amount, exactly the opposing market order of the claim — SELL
sized to the absolute amount for a positive `positionAmt`, BUY sized to
the absolute amount for a negative one, and nothing for zero amounts. -/
theorem C5_close_all_positions_orders (newOrderFails : OrderObj → Bool)
    (ps : List Position) :
    (close_all_positions newOrderFails (Except.ok ps)).1
      = ps.filterMap claimCloseOrder :=
  closeLoop_eq_filterMap ps

/-- C6: every protective order (STOP_MARKET or TAKE_PROFIT_MARKET) placed
by `stop_loss_order` or `take_profit_order` has `closePosition=true`,
`priceProtect=true`, no quantity, `workingType=MARK_PRICE` and
`timeInForce=GTE_GTC`. -/
theorem C6_protective_order_fields (pair side : String) (q pct tick price : ℚ)
    (ps : List Position) (o : OrderObj)
    (ho : o ∈ stop_loss_order pair side q pct tick price ps ∨
          o ∈ take_profit_order pair side q pct tick price ps)
    (htype : o.type = "STOP_MARKET" ∨ o.type = "TAKE_PROFIT_MARKET") :
    o.closePosition = true ∧ o.priceProtect = true ∧ o.quantity = none ∧
      o.workingType = "MARK_PRICE" ∧ o.timeInForce = some "GTE_GTC" := by
  have hmt : o.type ≠ "MARKET" := by
    rcases htype with h | h <;> rw [h] <;> decide
  rcases ho with ho | ho
  · rw [stop_loss_order_eq] at ho
    split_ifs at ho <;> rcases mem_expectedTrace ho with rfl | rfl
    · exact absurd (market_order_type_eq pair side q) hmt
    · exact ⟨rfl, rfl, rfl, rfl, rfl⟩
    · exact absurd (market_order_type_eq pair side q) hmt
    · exact ⟨rfl, rfl, rfl, rfl, rfl⟩
  · rw [take_profit_order_eq] at ho
    split_ifs at ho <;> rcases mem_expectedTrace ho with rfl | rfl
    · exact absurd (market_order_type_eq pair side q) hmt
    · exact ⟨rfl, rfl, rfl, rfl, rfl⟩
    · exact absurd (market_order_type_eq pair side q) hmt
    · exact ⟨rfl, rfl, rfl, rfl, rfl⟩

/-- Witness for C6: the STOP_MARKET order placed by a concrete
`stop_loss_order` call has the five forced field values. -/
theorem C6_protective_order_fields_witness :
    (slProtective "BTCUSDT" true
        (round_step_size (100 * (1 - 2 / 100)) (1 / 10))).closePosition = true
    ∧ (slProtective "BTCUSDT" true
        (round_step_size (100 * (1 - 2 / 100)) (1 / 10))).priceProtect = true
    ∧ (slProtective "BTCUSDT" true
        (round_step_size (100 * (1 - 2 / 100)) (1 / 10))).quantity = none
    ∧ (slProtective "BTCUSDT" true
        (round_step_size (100 * (1 - 2 / 100)) (1 / 10))).workingType = "MARK_PRICE"
    ∧ (slProtective "BTCUSDT" true
        (round_step_size (100 * (1 - 2 / 100)) (1 / 10))).timeInForce = some "GTE_GTC" :=
  C6_protective_order_fields "BTCUSDT" "long" 1 2 (1 / 10) 100 [] _
    (Or.inl (by simp [stop_loss_order, scanLong])) (Or.inl rfl)

/-- C7: in the wire payload of any order built by `make_order`, no key is
sent with a `None` value, and each optional key (`quantity`,
`timeInForce`, `price`, `stopPrice`) is present exactly when the
corresponding argument was set. -/
theorem C7_payload_omits_unset_fields (o : OrderObj) :
    (∀ kv ∈ wirePayload o, kv.2 ≠ PyVal.pynone)
    ∧ ((∃ v, ("quantity", v) ∈ wirePayload o) ↔ o.quantity ≠ none)
    ∧ ((∃ v, ("timeInForce", v) ∈ wirePayload o) ↔ o.timeInForce ≠ none)
    ∧ ((∃ v, ("price", v) ∈ wirePayload o) ↔ o.price ≠ none)
    ∧ ((∃ v, ("stopPrice", v) ∈ wirePayload o) ↔ o.stopPrice ≠ none) := by
  obtain ⟨sym, sd, psd, ty, qty, tif, pr, sp, wt, pp, cp⟩ := o
  cases qty <;> cases tif <;> cases pr <;> cases sp <;>
    simp [wirePayload, cleanNoneValue, orderParams]

/-- Witness for C7 on the concrete protective order of the running
example: `quantity` is absent from its wire payload because it was unset,
and `stopPrice` is present because it was set. -/
theorem C7_payload_omits_unset_fields_witness :
    (¬ ∃ v, ("quantity", v) ∈ wirePayload (slProtective "BTCUSDT" true 98))
    ∧ (∃ v, ("stopPrice", v) ∈ wirePayload (slProtective "BTCUSDT" true 98)) :=
  ⟨fun h => ((C7_payload_omits_unset_fields (slProtective "BTCUSDT" true 98)).2.1.mp h) rfl,
   (C7_payload_omits_unset_fields (slProtective "BTCUSDT" true 98)).2.2.2.2.mpr
     (by simp [slProtective, make_order])⟩

/-- C3 counterexample: with open orders on BTCUSDT and ETHUSDT and the
cancel call raising on BTCUSDT, `cancel_all_orders` attempts only the
BTCUSDT cancel — the remaining symbol is never processed, contradicting
the continue-on-error half of the claim. And with every `new_order` call
failing, `close_all_positions` still returns the bare string
`"close-done"`, identical to the all-success return — the aggregate result
reports no per-symbol outcome, contradicting the reporting half. -/
theorem C3_counterexample :
    ((cancel_all_orders (fun s => s == "BTCUSDT")
        (Except.ok ["BTCUSDT", "ETHUSDT"])).1 = ["BTCUSDT"]
     ∧ "ETHUSDT" ∉ (cancel_all_orders (fun s => s == "BTCUSDT")
        (Except.ok ["BTCUSDT", "ETHUSDT"])).1)
    ∧ (close_all_positions (fun _ => true)
        (Except.ok [⟨"BTCUSDT", 1, "BOTH"⟩, ⟨"ETHUSDT", -2, "BOTH"⟩])).2
        = Except.ok "close-done" :=
  ⟨⟨rfl, by decide⟩, rfl⟩

/-- C3 amended: `close_all_positions` does continue past per-symbol order
failures (they are returned as values by `market_order` and never raise),
but its aggregate result is the constant string `"close-done"`, carrying
no per-symbol outcomes; in `cancel_all_orders` a raising cancel call
aborts the loop, so the symbols after the first failure are not processed
and only a single error value is returned. -/
theorem C3_amended (newOrderFails : OrderObj → Bool) (g : String → Bool)
    (ps : List Position) (l : List String) (s : String) (r : List String) :
    (close_all_positions newOrderFails (Except.ok ps)
        = (closeLoop ps, Except.ok "close-done"))
    ∧ ((∀ x ∈ l ++ s :: r, g x = false) →
        cancel_all_orders g (Except.ok (l ++ s :: r))
          = (l ++ s :: r, Except.ok "cancel-done"))
    ∧ ((∀ x ∈ l, g x = false) → g s = true →
        cancel_all_orders g (Except.ok (l ++ s :: r))
          = (l ++ [s], Except.error ("cancel_open_orders raised on " ++ s))) :=
  ⟨rfl,
   fun h => cancelLoop_all_ok g (l ++ s :: r) h,
   fun hl hs => cancelLoop_stops_at_failure g l s r hl hs⟩

/-- Witness for the amended C3 at concrete inputs: an all-failing close
run still returns `"close-done"`; an all-succeeding cancel run cancels
every listed symbol; a run whose second symbol raises stops right there. -/
theorem C3_amended_witness :
    close_all_positions (fun _ => true) (Except.ok [])
        = (closeLoop [], Except.ok "close-done")
    ∧ cancel_all_orders (fun _ => false) (Except.ok (["ETHUSDT"] ++ "BTCUSDT" :: ["XRPUSDT"]))
        = (["ETHUSDT"] ++ "BTCUSDT" :: ["XRPUSDT"], Except.ok "cancel-done")
    ∧ cancel_all_orders (fun x => x == "BTCUSDT") (Except.ok (["ETHUSDT"] ++ "BTCUSDT" :: ["XRPUSDT"]))
        = (["ETHUSDT"] ++ ["BTCUSDT"], Except.error ("cancel_open_orders raised on " ++ "BTCUSDT")) :=
  ⟨(C3_amended (fun _ => true) (fun _ => false) [] [] "" []).1,
   (C3_amended (fun _ => true) (fun _ => false) [] ["ETHUSDT"] "BTCUSDT" ["XRPUSDT"]).2.1
     (by decide),
   (C3_amended (fun _ => true) (fun x => x == "BTCUSDT") [] ["ETHUSDT"] "BTCUSDT" ["XRPUSDT"]).2.2
     (by decide) (by decide)⟩

/-- C4 counterexample: two open orders on the same symbol produce two
cancel-open-orders calls for that symbol, not one per distinct symbol. -/
theorem C4_counterexample :
    (cancel_all_orders (fun _ => false) (Except.ok ["BTCUSDT", "BTCUSDT"])).1
      = ["BTCUSDT", "BTCUSDT"]
    ∧ ((cancel_all_orders (fun _ => false)
        (Except.ok ["BTCUSDT", "BTCUSDT"])).1.count "BTCUSDT") ≠ 1 :=
  ⟨rfl, by decide⟩

/-- C4 amended: `cancel_all_orders` issues one cancel call per open-order
list entry, in listing order — so duplicate orders on a symbol yield
duplicate cancel calls (when no call raises, the call list is exactly the
symbol of each open order). -/
theorem C4_amended (g : String → Bool) (symbols : List String)
    (h : ∀ s ∈ symbols, g s = false) :
    (cancel_all_orders g (Except.ok symbols)).1 = symbols := by
  have := cancelLoop_all_ok g symbols h
  show (cancelLoop g symbols).1 = symbols
  rw [this]

/-- Witness for the amended C4: duplicate symbols in the open-order list
produce duplicate cancel calls. -/
theorem C4_amended_witness :
    (cancel_all_orders (fun _ => false) (Except.ok ["BTCUSDT", "BTCUSDT", "ETHUSDT"])).1
      = ["BTCUSDT", "BTCUSDT", "ETHUSDT"] :=
  C4_amended (fun _ => false) ["BTCUSDT", "BTCUSDT", "ETHUSDT"] (by decide)

/-- C8 counterexample: when the exchange-info call fails, `get_precisions`
catches the exception and returns Python `None` — exactly the value it
also returns on a successful load — so no metadata-fetch error is
surfaced to the caller, contradicting the first part of the claim. -/
theorem C8_counterexample :
    (get_precisions (Except.error "ConnectionError") emptyCache).2 = PyVal.pynone
    ∧ (get_precisions (Except.ok
        [⟨"ETHUSDT", 3, 2, [⟨"PRICE_FILTER", 1 / 100, 0, 0⟩,
          ⟨"LOT_SIZE", 0, 1 / 1000, 1 / 1000⟩]⟩]) emptyCache).2 = PyVal.pynone :=
  ⟨rfl, rfl⟩

/-- C8 amended: a failing exchange-info call is swallowed —
`get_precisions` returns the same `None` as on success and leaves the
cached maps untouched; a successful load rebuilds all five maps from
empty, independent of the prior cache (wholesale replacement); and
looking up a symbol absent from the cache in `get_pair_parameters`
surfaces an error value (the caught `KeyError`). -/
theorem C8_amended_error_swallowed :
    (∀ e st, get_precisions (Except.error e) st = (st, PyVal.pynone))
    ∧ (∀ symbols st st2, (get_precisions (Except.ok symbols) st).1
        = (get_precisions (Except.ok symbols) st2).1)
    ∧ (∀ st tp pair, st.min_sizes pair = none →
        get_pair_parameters st tp pair = Except.error ("KeyError: " ++ pair)) := by
  refine ⟨fun e st => rfl, fun symbols st st2 => rfl, fun st tp pair h => ?_⟩
  rw [get_pair_parameters, keyLookup, h]

/-- Witness for the amended C8: an uncached symbol yields a `KeyError`
error value from `get_pair_parameters`. -/
theorem C8_amended_error_swallowed_witness :
    get_pair_parameters emptyCache (Except.ok 100) "SOLUSDT"
      = Except.error ("KeyError: " ++ "SOLUSDT") :=
  C8_amended_error_swallowed.2.2 emptyCache (Except.ok 100) "SOLUSDT" rfl

/-- C9: `get_pair_parameters` reports tick size `0.1` for BTCUSDT no
matter what tick size the metadata load stored, and for every other
symbol it reports exactly the cached tick size. -/
theorem C9_btcusdt_tick_size (st : CacheState) (tp : Except String ℚ) :
    (∀ p, get_pair_parameters st tp "BTCUSDT" = Except.ok p → p.tick_size = 1 / 10)
    ∧ (∀ pair p, pair ≠ "BTCUSDT" →
        get_pair_parameters st tp pair = Except.ok p →
        st.tick_sizes pair = some p.tick_size) :=
  ⟨fun p hp => (get_pair_parameters_tick_size st tp "BTCUSDT" p hp).1 rfl,
   fun pair p hne hp => (get_pair_parameters_tick_size st tp pair p hp).2 hne⟩

/-- Witness for C9: a cache that stores tick size `5` for BTCUSDT still
yields `0.1` from `get_pair_parameters`. -/
theorem C9_btcusdt_tick_size_witness :
    demoCache.tick_sizes "BTCUSDT" = some 5
    ∧ (⟨1, 100, 2, 3, 1, 1 / 10⟩ : PairParams).tick_size = 1 / 10 :=
  ⟨rfl, (C9_btcusdt_tick_size demoCache (Except.ok 100)).1
    ⟨1, 100, 2, 3, 1, 1 / 10⟩ rfl⟩

/-- C10: when no balance entry matches the requested coin, `get_balance`
returns `0` (not an error); when one does, it returns the balance of the
first matching entry. -/
theorem C10_get_balance (coin : String) (rs : List BalanceEntry) :
    ((∀ r ∈ rs, r.asset ≠ coin) → get_balance (Except.ok rs) coin = Except.ok 0)
    ∧ (∀ l e r, rs = l ++ e :: r → (∀ x ∈ l, x.asset ≠ coin) → e.asset = coin →
        get_balance (Except.ok rs) coin = Except.ok e.balance) := by
  constructor
  · intro h
    show Except.ok (balanceScan coin rs) = Except.ok 0
    rw [balanceScan_of_not_mem coin rs h]
  · rintro l e r rfl hl he
    show Except.ok (balanceScan coin (l ++ e :: r)) = Except.ok e.balance
    rw [balanceScan_first_match coin l e r hl he]

/-- Witness for C10: no matching asset gives `0`; with two USDT entries
the first one's balance is returned. -/
theorem C10_get_balance_witness :
    get_balance (Except.ok ([] : List BalanceEntry)) "USDT" = Except.ok 0
    ∧ get_balance (Except.ok [⟨"BUSD", 7⟩, ⟨"USDT", 3⟩, ⟨"USDT", 9⟩]) "USDT"
        = Except.ok 3 :=
  ⟨(C10_get_balance "USDT" []).1 (by simp),
   (C10_get_balance "USDT" [⟨"BUSD", 7⟩, ⟨"USDT", 3⟩, ⟨"USDT", 9⟩]).2
     [⟨"BUSD", 7⟩] ⟨"USDT", 3⟩ [⟨"USDT", 9⟩] rfl (by decide) rfl⟩
